import Mathlib

/-!
Verification of the kubemacpool specification against the repository.

The repository slice under version control holds the deployment manifests
and a vendored copy of the controller-runtime manager
(`pkg/manager/manager.go`).  The MAC pool allocation engine itself is not
part of the slice, so it is modelled from the specification text
(definitions carrying a `Modelled from the spec:` doc comment); the
manager construction code is embedded directly from
`pkg/manager/manager.go`.
-/

namespace KubeMacPool

/-- Modelled from the spec: allocation state of an Allocation Record,
`state ∈ {Provisional, Confirmed}` (spec §3).  The pool-manager source is
not in the repository slice. -/
inductive AllocState where
  | provisional
  | confirmed
deriving DecidableEq, Repr

/-- Modelled from the spec: an Allocation Record — `address` is the key of
the table entry, so the record itself carries `owner`, `state`,
`allocatedAt`, `transactionID` (spec §3). -/
structure AllocationRecord where
  owner : String
  state : AllocState
  allocatedAt : Nat
  transactionID : Nat
deriving DecidableEq, Repr

/-- Modelled from the spec: the Allocation Table, a mapping
address → Allocation Record (spec §3), embedded as an association list
keyed by the 48-bit address. -/
abbrev AllocationTable := List (Nat × AllocationRecord)

/-- Lookup of the record stored for an address. -/
def lookupTable : AllocationTable → Nat → Option AllocationRecord
  | [], _ => none
  | (b, r) :: rest, a => if b = a then some r else lookupTable rest a

/-- Modelled from the spec: the Pool Manager state — the configured MAC
Range `start`/`end` (48-bit integers, inclusive), the rotating round-robin
cursor (an offset into the range), and the Allocation Table (spec §3,
§4.2). -/
structure PoolManager where
  rangeStart : Nat
  rangeEnd : Nat
  cursor : Nat
  table : AllocationTable
deriving DecidableEq, Repr

/-- Inclusive size of the configured range (spec §4.1 `size()`). -/
def PoolManager.rangeSize (p : PoolManager) : Nat :=
  p.rangeEnd - p.rangeStart + 1

/-- Modelled from the spec: error taxonomy of the Pool Manager
(spec §4.2, §7). -/
inductive AllocError where
  | poolExhausted
  | notFound
  | ownerMismatch
deriving DecidableEq, Repr

/-- One step of the allocation scan: try the address at offset
`pos % size` from the range start, else recurse with `rem` tries left. -/
def scanAux (t : AllocationTable) (rs size : Nat) : Nat → Nat → Option Nat
  | _, 0 => none
  | pos, rem + 1 =>
      if lookupTable t (rs + pos % size) = none then some (rs + pos % size)
      else scanAux t rs size (pos + 1) rem

/-- Modelled from the spec: the scan of `Allocate` — starting from the
rotating cursor, visit each address of the range exactly once and return
the first one with no Allocation Record (spec §4.2). -/
def PoolManager.scanFree (p : PoolManager) : Option Nat :=
  scanAux p.table p.rangeStart p.rangeSize p.cursor p.rangeSize

/-- Modelled from the spec: `Allocate(transactionID, owner)` — scan from
the rotating cursor for the first free address, create a Provisional
record and advance the cursor past the returned address; if every address
is occupied fail with `PoolExhausted` and perform no mutation
(spec §4.2). -/
def PoolManager.Allocate (p : PoolManager) (tid : Nat) (owner : String)
    (now : Nat) : Except AllocError (Nat × PoolManager) :=
  match p.scanFree with
  | none => .error .poolExhausted
  | some a =>
      .ok (a,
        { p with
          table := (a, ⟨owner, .provisional, now, tid⟩) :: p.table
          cursor := (a - p.rangeStart + 1) % p.rangeSize })

/-- Modelled from the spec: `Release(address, owner)` — remove the record
regardless of state; releasing an address with no record is not an error
(idempotent best-effort cleanup); a record owned by someone else fails
with `OwnerMismatch` (spec §4.2). -/
def PoolManager.Release (p : PoolManager) (a : Nat) (owner : String) :
    Except AllocError PoolManager :=
  match lookupTable p.table a with
  | none => .ok p
  | some r =>
      if r.owner = owner then
        .ok { p with table := p.table.filter fun e => decide (e.1 ≠ a) }
      else .error .ownerMismatch

/-- Modelled from the spec: `Confirm(address, owner)` — transition a
Provisional record to Confirmed; fail with `NotFound` when the address has
no record and with `OwnerMismatch` when the record belongs to a different
owner (spec §4.2). -/
def PoolManager.Confirm (p : PoolManager) (a : Nat) (owner : String) :
    Except AllocError PoolManager :=
  match lookupTable p.table a with
  | none => .error .notFound
  | some r =>
      if r.owner = owner then
        .ok { p with
              table := p.table.map fun e =>
                if e.1 = a then (e.1, { e.2 with state := .confirmed }) else e }
      else .error .ownerMismatch

/-- Modelled from the spec: `RollbackTransaction(transactionID)` — release
every record created under that transaction ID that is still Provisional
(spec §4.2). -/
def PoolManager.RollbackTransaction (p : PoolManager) (tid : Nat) :
    PoolManager :=
  { p with
    table := p.table.filter fun e =>
      decide (¬(e.2.transactionID = tid ∧ e.2.state = .provisional)) }

/-- Modelled from the spec: one Reclamation Sweeper cycle at time `now` —
release every record still Provisional whose `allocatedAt` is older than
the configured wait time (spec §4.3). -/
def PoolManager.sweep (p : PoolManager) (now waitTime : Nat) : PoolManager :=
  { p with
    table := p.table.filter fun e =>
      decide (¬(e.2.state = .provisional ∧ e.2.allocatedAt + waitTime < now)) }

/-- Modelled from the spec: the observable Pool Manager operations a
client may issue, used to state the table invariant over all call
sequences (spec §8). -/
inductive PoolOp where
  | allocate (tid : Nat) (owner : String) (now : Nat)
  | release (addr : Nat) (owner : String)
deriving DecidableEq, Repr

/-- Apply one operation to the Pool Manager, keeping the prior state when
the operation fails (an error performs no mutation). -/
def applyOp (p : PoolManager) : PoolOp → PoolManager
  | .allocate tid owner now =>
      match p.Allocate tid owner now with
      | .ok (_, p') => p'
      | .error _ => p
  | .release a owner =>
      match p.Release a owner with
      | .ok p' => p'
      | .error _ => p

/-- Apply a sequence of operations in order. -/
def applyOps (p : PoolManager) (ops : List PoolOp) : PoolManager :=
  ops.foldl applyOp p

/-- The addresses keyed in the table are pairwise distinct: each address
is the key of at most one Allocation Record. -/
def keysNodup (t : AllocationTable) : Prop :=
  (t.map Prod.fst).Nodup

instance (t : AllocationTable) : Decidable (keysNodup t) := by
  unfold keysNodup; infer_instance

/-- Modelled from the spec: the allocation loop of a Mutation Handler —
for each interface needing an address, call `Allocate` under the shared
transaction ID; stop at the first failure, returning the state reached so
far (spec §4.4). -/
def allocLoop (tid now : Nat) :
    PoolManager → List String → Except AllocError (List Nat) × PoolManager
  | p, [] => (.ok [], p)
  | p, owner :: rest =>
      match p.Allocate tid owner now with
      | .error e => (.error e, p)
      | .ok (a, p') =>
          match allocLoop tid now p' rest with
          | (.ok as, p'') => (.ok (a :: as), p'')
          | (.error e, p'') => (.error e, p'')

/-- Modelled from the spec: the Mutation Handler admission path — allocate
an address for every interface of the request under one transaction ID;
on any allocation failure mid-request call `RollbackTransaction` and fail
the whole admission (spec §4.4). -/
def mutateRequest (p : PoolManager) (tid : Nat) (owners : List String)
    (now : Nat) : Except AllocError (List Nat) × PoolManager :=
  match allocLoop tid now p owners with
  | (.ok as, p') => (.ok as, p')
  | (.error e, p') => (.error e, p'.RollbackTransaction tid)

/-- Modelled from the spec: the Reclamation Sweeper runs on a fixed
interval (spec §4.3), so the k-th sweep cycle fires at `t0 + k * interval`
after the sweeper starts at `t0`. -/
def sweepTime (t0 interval k : Nat) : Nat :=
  t0 + k * interval

/-- Value of one hex digit character, accepting both cases (`0`-`9`,
`A`-`F`, `a`-`f`). -/
def hexDigitToNat (c : Char) : Option Nat :=
  if 48 ≤ c.toNat ∧ c.toNat ≤ 57 then some (c.toNat - 48)
  else if 65 ≤ c.toNat ∧ c.toNat ≤ 70 then some (c.toNat - 55)
  else if 97 ≤ c.toNat ∧ c.toNat ≤ 102 then some (c.toNat - 87)
  else none

/-- Canonical (upper-case) hex digit character of a value below 16. -/
def natToHexDigit (n : Nat) : Char :=
  if n < 10 then Char.ofNat (n + 48) else Char.ofNat (n + 55)

/-- Two canonical hex digit characters of a byte value. -/
def renderByte (b : Nat) : List Char :=
  [natToHexDigit (b / 16), natToHexDigit (b % 16)]

/-- Byte value of two hex digit characters. -/
def parseByte (c1 c2 : Char) : Option Nat :=
  match hexDigitToNat c1, hexDigitToNat c2 with
  | some x, some y => some (16 * x + y)
  | _, _ => none

/-- Modelled from the spec: rendering of a 48-bit integer as its canonical
colon-hex MAC string (spec §4.1: addresses are colon-hex externally and
48-bit integers internally), as a character list. -/
def macRender (n : Nat) : List Char :=
  renderByte (n / 2 ^ 40 % 256) ++ [':'] ++ renderByte (n / 2 ^ 32 % 256) ++ [':'] ++
  renderByte (n / 2 ^ 24 % 256) ++ [':'] ++ renderByte (n / 2 ^ 16 % 256) ++ [':'] ++
  renderByte (n / 2 ^ 8 % 256) ++ [':'] ++ renderByte (n % 256)

/-- Modelled from the spec: parsing of a colon-hex MAC string into its
48-bit integer value; accepts exactly the six-group two-digit colon-hex
shape (spec §4.1). -/
def macParse : List Char → Option Nat
  | [a1, a2, ':', b1, b2, ':', c1, c2, ':', d1, d2, ':', e1, e2, ':', f1, f2] =>
      match parseByte a1 a2, parseByte b1 b2, parseByte c1 c2,
            parseByte d1 d2, parseByte e1 e2, parseByte f1 f2 with
      | some v5, some v4, some v3, some v2, some v1, some v0 =>
          some (v5 * 2 ^ 40 + v4 * 2 ^ 32 + v3 * 2 ^ 24 +
                v2 * 2 ^ 16 + v1 * 2 ^ 8 + v0)
      | _, _, _, _, _, _ => none
  | _ => none

/-- A character list is in canonical form when none of its characters is a
lower-case letter (code point below 97): digits, upper-case hex digits and
the colon all qualify, so canonical colon-hex strings are exactly the
upper-case ones. -/
def canonicalChars (s : List Char) : Prop :=
  ∀ c ∈ s, c.toNat < 97

instance (s : List Char) : Decidable (canonicalChars s) := by
  unfold canonicalChars; infer_instance

/-- Modelled from the spec: the resource kind of an inbound admission
request; the admission configuration registers handlers for Pods and
VirtualMachines only (spec §4.5, deployment `MutatingWebhookConfiguration`). -/
inductive ResourceKind where
  | pod
  | virtualMachine
  | other (name : String)
deriving DecidableEq, Repr

/-- Modelled from the spec: the per-kind Mutation Handlers (spec §4.4). -/
inductive MutationHandler where
  | podMutator
  | vmMutator
deriving DecidableEq, Repr

/-- Modelled from the spec: the structural error of the Webhook Dispatcher
for kinds with no registered handler (spec §4.5). -/
inductive DispatchError where
  | unrecognizedKind
deriving DecidableEq, Repr

/-- Webhook endpoint path served by each Mutation Handler, from the
deployment `MutatingWebhookConfiguration` (`/mutate-pods` for the `pods`
rule, `/mutate-virtualmachines` for the `virtualmachines` rule). -/
def webhookPath : MutationHandler → String
  | .podMutator => "/mutate-pods"
  | .vmMutator => "/mutate-virtualmachines"

/-- Modelled from the spec: the Webhook Dispatcher — route an admission
request by resource kind to the matching Mutation Handler, rejecting
unrecognized kinds with a structural error (spec §4.5). -/
def dispatch : ResourceKind → Except DispatchError MutationHandler
  | .pod => .ok .podMutator
  | .virtualMachine => .ok .vmMutator
  | .other _ => .error .unrecognizedKind

/-- Scenario state of spec §8: a fresh Pool Manager over the three-address
range `02:00:00:00:00:00`–`02:00:00:00:00:02`. -/
def scenarioPool : PoolManager :=
  ⟨0x020000000000, 0x020000000002, 0, []⟩

/-- Scenario state after the first single-interface allocation. -/
def scenarioPool1 : PoolManager :=
  ⟨0x020000000000, 0x020000000002, 1,
   [(0x020000000000, ⟨"a", .provisional, 0, 1⟩)]⟩

/-- Scenario state after the second single-interface allocation. -/
def scenarioPool2 : PoolManager :=
  ⟨0x020000000000, 0x020000000002, 2,
   [(0x020000000001, ⟨"b", .provisional, 1, 2⟩),
    (0x020000000000, ⟨"a", .provisional, 0, 1⟩)]⟩

/-- Scenario state after the third single-interface allocation: every
address of the range now has an Allocation Record. -/
def scenarioPool3 : PoolManager :=
  ⟨0x020000000000, 0x020000000002, 0,
   [(0x020000000002, ⟨"c", .provisional, 2, 3⟩),
    (0x020000000001, ⟨"b", .provisional, 1, 2⟩),
    (0x020000000000, ⟨"a", .provisional, 0, 1⟩)]⟩

end KubeMacPool

namespace ManagerPkg

/-! Embedding of `pkg/manager/manager.go` (a vendored copy of
controller-runtime's manager).  External collaborator types (rest config,
scheme, mapper, cache, client, ...) are opaque to this package: they are
modelled as tagged values, and the external constructors as stub
functions, since `New` and `setOptionsDefaults` only thread them
through. -/

/-- Go errors, carried as their message string. -/
abbrev GoError := String

/-- Stand-in for `*rest.Config`; a nil pointer is `Option.none` at use
sites. -/
structure RestConfig where
  host : String
deriving DecidableEq, Repr

/-- Stand-in for `*runtime.Scheme`. -/
structure RuntimeScheme where
  tag : Nat
deriving DecidableEq, Repr

/-- Stand-in for `meta.RESTMapper`. -/
structure RESTMapper where
  tag : Nat
deriving DecidableEq, Repr

/-- Stand-in for `cache.Cache`. -/
structure Cache where
  tag : Nat
deriving DecidableEq, Repr

/-- Stand-in for `client.Client`; `delegating` mirrors the
`client.DelegatingClient` literal built by `defaultNewClient`. -/
inductive Client where
  | base (tag : Nat)
  | delegating (cacheReader : Cache) (clientReader writer statusClient : Client)
deriving DecidableEq, Repr

/-- Stand-in for `recorder.Provider`. -/
structure RecorderProvider where
  tag : Nat
deriving DecidableEq, Repr

/-- Stand-in for `resourcelock.Interface`. -/
structure ResourceLock where
  tag : Nat
deriving DecidableEq, Repr

/-- Stand-in for `types.Decoder` (admission decoder). -/
structure AdmissionDecoder where
  tag : Nat
deriving DecidableEq, Repr

/-- Stand-in for `net.Listener` (metrics listener). -/
structure MetricsListener where
  tag : Nat
deriving DecidableEq, Repr

/-- Stand-in for `logr.Logger`, carried as its name. -/
abbrev Logger := String

/-- `cache.Options` as passed by `New`. -/
structure CacheOptions where
  Scheme : Option RuntimeScheme
  Mapper : RESTMapper
  Resync : Option Nat
  Namespace : String
deriving DecidableEq, Repr

/-- `client.Options` as passed by `New` and `defaultNewClient`. -/
structure ClientOptions where
  Scheme : Option RuntimeScheme
  Mapper : RESTMapper
deriving DecidableEq, Repr

/-- `leaderelection.Options` as passed to the resource-lock hook. -/
structure LeaderElectionOptions where
  LeaderElection : Bool
  LeaderElectionID : String
  LeaderElectionNamespace : String
deriving DecidableEq, Repr

/-- `Options` of `pkg/manager/manager.go`: nil-able pointer, function and
hook fields are `Option`s; value fields keep their Go zero values when
unset. -/
structure Options where
  Scheme : Option RuntimeScheme
  MapperProvider : Option (RestConfig → Except GoError RESTMapper)
  SyncPeriod : Option Nat
  LeaderElection : Bool
  LeaderElectionNamespace : String
  LeaderElectionID : String
  Namespace : String
  MetricsBindAddress : String
  NewCache : Option (RestConfig → CacheOptions → Except GoError Cache)
  NewClient : Option (Cache → RestConfig → ClientOptions → Except GoError Client)
  newRecorderProvider :
    Option (RestConfig → Option RuntimeScheme → Logger → Except GoError RecorderProvider)
  newResourceLock :
    Option (RestConfig → RecorderProvider → LeaderElectionOptions → Except GoError ResourceLock)
  newAdmissionDecoder : Option (Option RuntimeScheme → Except GoError AdmissionDecoder)
  newMetricsListener : Option (String → Except GoError MetricsListener)

/-- External stub: `scheme.Scheme` of client-go. -/
def clientGoScheme : RuntimeScheme := ⟨0⟩

/-- External stub: `apiutil.NewDiscoveryRESTMapper`. -/
def NewDiscoveryRESTMapper : RestConfig → Except GoError RESTMapper :=
  fun _ => .ok ⟨0⟩

/-- External stub: `client.New`. -/
def clientNew : RestConfig → ClientOptions → Except GoError Client :=
  fun _ _ => .ok (.base 0)

/-- External stub: `cache.New`. -/
def cacheNew : RestConfig → CacheOptions → Except GoError Cache :=
  fun _ _ => .ok ⟨0⟩

/-- External stub: `internalrecorder.NewProvider`. -/
def internalRecorderNewProvider :
    RestConfig → Option RuntimeScheme → Logger → Except GoError RecorderProvider :=
  fun _ _ _ => .ok ⟨0⟩

/-- External stub: `leaderelection.NewResourceLock`. -/
def leaderElectionNewResourceLock :
    RestConfig → RecorderProvider → LeaderElectionOptions → Except GoError ResourceLock :=
  fun _ _ _ => .ok ⟨0⟩

/-- External stub: `admission.NewDecoder`. -/
def admissionNewDecoder : Option RuntimeScheme → Except GoError AdmissionDecoder :=
  fun _ => .ok ⟨0⟩

/-- External stub: `metrics.NewListener`. -/
def metricsNewListener : String → Except GoError MetricsListener :=
  fun _ => .ok ⟨0⟩

/-- `defaultNewClient` of `pkg/manager/manager.go`: create the write
client with `client.New` and wrap it in the `DelegatingClient` whose
reader delegates to the cache. -/
def defaultNewClient (cache : Cache) (config : RestConfig)
    (options : ClientOptions) : Except GoError Client :=
  match clientNew config options with
  | .error err => .error err
  | .ok c => .ok (.delegating cache c c c)

/-- First statement of `setOptionsDefaults`: use the Kubernetes client-go
scheme if none is specified. -/
def defaultSchemeStep (options : Options) : Options :=
  if options.Scheme.isNone then { options with Scheme := some clientGoScheme }
  else options

/-- Second statement of `setOptionsDefaults`: default `MapperProvider`. -/
def defaultMapperStep (options : Options) : Options :=
  if options.MapperProvider.isNone then
    { options with MapperProvider := some NewDiscoveryRESTMapper }
  else options

/-- Third statement of `setOptionsDefaults`: allow `NewClient` to be
mocked. -/
def defaultClientStep (options : Options) : Options :=
  if options.NewClient.isNone then
    { options with NewClient := some defaultNewClient }
  else options

/-- Fourth statement of `setOptionsDefaults`: allow `NewCache` to be
mocked. -/
def defaultCacheStep (options : Options) : Options :=
  if options.NewCache.isNone then { options with NewCache := some cacheNew }
  else options

/-- Fifth statement of `setOptionsDefaults`: allow `newRecorderProvider`
to be mocked. -/
def defaultRecorderProviderStep (options : Options) : Options :=
  if options.newRecorderProvider.isNone then
    { options with newRecorderProvider := some internalRecorderNewProvider }
  else options

/-- Sixth statement of `setOptionsDefaults`: allow `newResourceLock` to be
mocked. -/
def defaultResourceLockStep (options : Options) : Options :=
  if options.newResourceLock.isNone then
    { options with newResourceLock := some leaderElectionNewResourceLock }
  else options

/-- Seventh statement of `setOptionsDefaults`: default
`newAdmissionDecoder`. -/
def defaultAdmissionDecoderStep (options : Options) : Options :=
  if options.newAdmissionDecoder.isNone then
    { options with newAdmissionDecoder := some admissionNewDecoder }
  else options

/-- Eighth statement of `setOptionsDefaults`: default
`newMetricsListener`. -/
def defaultMetricsListenerStep (options : Options) : Options :=
  if options.newMetricsListener.isNone then
    { options with newMetricsListener := some metricsNewListener }
  else options

/-- `setOptionsDefaults` of `pkg/manager/manager.go`: fill every nil
field of `Options` with its default and return the result — the eight
`if` statements of the Go function run in order. -/
def setOptionsDefaults (options : Options) : Options :=
  defaultMetricsListenerStep (defaultAdmissionDecoderStep (defaultResourceLockStep
    (defaultRecorderProviderStep (defaultCacheStep (defaultClientStep
      (defaultMapperStep (defaultSchemeStep options)))))))

/-- The `controllerManager` struct literal returned by `New` (the stop
channels and error channel are runtime concurrency plumbing and carry no
data). -/
structure ControllerManager where
  config : RestConfig
  scheme : Option RuntimeScheme
  admissionDecoder : AdmissionDecoder
  cache : Cache
  client : Client
  recorderProvider : RecorderProvider
  resourceLock : ResourceLock
  mapper : RESTMapper
  metricsListener : MetricsListener
deriving DecidableEq, Repr

/-- Construction effects performed by `New`, recorded in program order so
that the early-return paths are visible in the embedding. -/
inductive BuildStep where
  | defaultedOptions
  | builtMapper
  | builtCache
  | builtClient
  | builtRecorderProvider
  | builtResourceLock
  | builtAdmissionDecoder
  | builtMetricsListener
deriving DecidableEq, Repr

/-- `New` of `pkg/manager/manager.go`: reject a nil config, default the
options, then build mapper, cache, client, recorder provider, resource
lock, admission decoder and metrics listener in order, returning the
first error; on success return the `controllerManager`.  The second
component records each construction effect performed before returning. -/
def New (config : Option RestConfig) (options : Options) :
    Except GoError ControllerManager × List BuildStep :=
  match config with
  | none => (.error "must specify Config", [])
  | some cfg =>
      let options := setOptionsDefaults options
      let trace := [BuildStep.defaultedOptions]
      match options.MapperProvider with
      | none => (.error "nil MapperProvider", trace)
      | some mapperProvider =>
          let trace := trace ++ [BuildStep.builtMapper]
          match mapperProvider cfg with
          | .error err => (.error err, trace)
          | .ok mapper =>
              match options.NewCache with
              | none => (.error "nil NewCache", trace)
              | some newCache =>
                  let trace := trace ++ [BuildStep.builtCache]
                  match newCache cfg ⟨options.Scheme, mapper, options.SyncPeriod,
                                      options.Namespace⟩ with
                  | .error err => (.error err, trace)
                  | .ok cache =>
                      match options.NewClient with
                      | none => (.error "nil NewClient", trace)
                      | some newClient =>
                          let trace := trace ++ [BuildStep.builtClient]
                          match newClient cache cfg ⟨options.Scheme, mapper⟩ with
                          | .error err => (.error err, trace)
                          | .ok writeObj =>
                              match options.newRecorderProvider with
                              | none => (.error "nil newRecorderProvider", trace)
                              | some newRecorderProvider =>
                                  let trace := trace ++ [BuildStep.builtRecorderProvider]
                                  match newRecorderProvider cfg options.Scheme "events" with
                                  | .error err => (.error err, trace)
                                  | .ok recorderProvider =>
                                      match options.newResourceLock with
                                      | none => (.error "nil newResourceLock", trace)
                                      | some newResourceLock =>
                                          let trace := trace ++ [BuildStep.builtResourceLock]
                                          match newResourceLock cfg recorderProvider
                                              ⟨options.LeaderElection, options.LeaderElectionID,
                                               options.LeaderElectionNamespace⟩ with
                                          | .error err => (.error err, trace)
                                          | .ok resourceLock =>
                                              match options.newAdmissionDecoder with
                                              | none => (.error "nil newAdmissionDecoder", trace)
                                              | some newAdmissionDecoder =>
                                                  let trace := trace ++ [BuildStep.builtAdmissionDecoder]
                                                  match newAdmissionDecoder options.Scheme with
                                                  | .error err => (.error err, trace)
                                                  | .ok admissionDecoder =>
                                                      match options.newMetricsListener with
                                                      | none => (.error "nil newMetricsListener", trace)
                                                      | some newMetricsListener =>
                                                          let trace := trace ++ [BuildStep.builtMetricsListener]
                                                          match newMetricsListener options.MetricsBindAddress with
                                                          | .error err => (.error err, trace)
                                                          | .ok metricsListener =>
                                                              (.ok ⟨cfg, options.Scheme, admissionDecoder,
                                                                    cache, writeObj, recorderProvider,
                                                                    resourceLock, mapper, metricsListener⟩,
                                                               trace)

end ManagerPkg

namespace KubeMacPool

/-! Helper lemmas shared by the claim theorems. -/

theorem lookupTable_eq_none_iff (t : AllocationTable) (a : Nat) :
    lookupTable t a = none ↔ a ∉ t.map Prod.fst := by
  induction t with
  | nil => simp [lookupTable]
  | cons e rest ih =>
      obtain ⟨b, r⟩ := e
      simp only [lookupTable, List.map_cons, List.mem_cons]
      by_cases hb : b = a
      · simp [hb]
      · simp [hb, ih, Ne.symm hb]

theorem keysNodup_filter (t : AllocationTable) (pred : Nat × AllocationRecord → Bool)
    (h : keysNodup t) : keysNodup (t.filter pred) :=
  List.Nodup.sublist (List.Sublist.map Prod.fst (List.filter_sublist t)) h

theorem scanAux_some_free (t : AllocationTable) (rs size : Nat) :
    ∀ rem pos a, scanAux t rs size pos rem = some a → lookupTable t a = none := by
  intro rem
  induction rem with
  | zero => intro pos a h; simp [scanAux] at h
  | succ n ih =>
      intro pos a h
      simp only [scanAux] at h
      split at h
      · injection h with h2
        subst h2
        assumption
      · exact ih (pos + 1) a h

theorem scanAux_some_bound (t : AllocationTable) (rs size : Nat) (hsz : 0 < size) :
    ∀ rem pos a, scanAux t rs size pos rem = some a → rs ≤ a ∧ a < rs + size := by
  intro rem
  induction rem with
  | zero => intro pos a h; simp [scanAux] at h
  | succ n ih =>
      intro pos a h
      simp only [scanAux] at h
      split at h
      · injection h with h2
        subst h2
        exact ⟨Nat.le_add_right _ _, Nat.add_lt_add_left (Nat.mod_lt _ hsz) _⟩
      · exact ih (pos + 1) a h

theorem scanAux_none_of_full (t : AllocationTable) (rs size : Nat) (hsz : 0 < size)
    (hfull : ∀ a, rs ≤ a → a < rs + size → lookupTable t a ≠ none) :
    ∀ rem pos, scanAux t rs size pos rem = none := by
  intro rem
  induction rem with
  | zero => intro pos; simp [scanAux]
  | succ n ih =>
      intro pos
      simp only [scanAux]
      split
      · rename_i hfree
        exact absurd hfree
          (hfull _ (Nat.le_add_right _ _) (Nat.add_lt_add_left (Nat.mod_lt _ hsz) _))
      · exact ih (pos + 1)

theorem Release_ok_table (p : PoolManager) (a : Nat) (owner : String)
    (p' : PoolManager) (h : p.Release a owner = .ok p') :
    p'.table = p.table ∨ p'.table = p.table.filter fun e => decide (e.1 ≠ a) := by
  unfold PoolManager.Release at h
  cases hl : lookupTable p.table a with
  | none =>
      rw [hl] at h
      injection h with h2
      subst h2
      exact Or.inl rfl
  | some r =>
      rw [hl] at h
      dsimp only at h
      split at h
      · injection h with h2
        subst h2
        exact Or.inr rfl
      · cases h

theorem Allocate_ok_spec (p : PoolManager) (tid : Nat) (o : String) (now : Nat)
    (a : Nat) (p' : PoolManager) (h : p.Allocate tid o now = .ok (a, p')) :
    p.scanFree = some a ∧
    p'.table = (a, ⟨o, .provisional, now, tid⟩) :: p.table ∧
    p'.rangeStart = p.rangeStart ∧ p'.rangeEnd = p.rangeEnd := by
  unfold PoolManager.Allocate at h
  cases hs : p.scanFree with
  | none => rw [hs] at h; cases h
  | some b =>
      rw [hs] at h
      simp only [Except.ok.injEq, Prod.mk.injEq] at h
      obtain ⟨rfl, rfl⟩ := h
      exact ⟨rfl, rfl, rfl, rfl⟩

theorem keysNodup_applyOp (p : PoolManager) (op : PoolOp) (h : keysNodup p.table) :
    keysNodup (applyOp p op).table := by
  cases op with
  | allocate tid owner now =>
      simp only [applyOp]
      cases ha : p.Allocate tid owner now with
      | error e => exact h
      | ok v =>
          obtain ⟨a, p'⟩ := v
          obtain ⟨hs, ht, -, -⟩ := Allocate_ok_spec p tid owner now a p' ha
          have hfree : lookupTable p.table a = none :=
            scanAux_some_free p.table p.rangeStart p.rangeSize p.rangeSize p.cursor a hs
          unfold keysNodup at h ⊢
          rw [ht]
          simp only [List.map_cons, List.nodup_cons]
          exact ⟨(lookupTable_eq_none_iff p.table a).mp hfree, h⟩
  | release a owner =>
      simp only [applyOp]
      cases hr : p.Release a owner with
      | error e => exact h
      | ok p' =>
          rcases Release_ok_table p a owner p' hr with ht | ht
          · show keysNodup p'.table
            rw [ht]; exact h
          · show keysNodup p'.table
            rw [ht]; exact keysNodup_filter _ _ h


/-- C1: for every sequence of `Allocate`/`Release` operations on the Pool
Manager, starting from a table whose addresses are pairwise distinct, at
every point of the sequence no two Allocation Records share the same
address — each address keys at most one record. -/
theorem C1_allocation_addresses_unique (p : PoolManager) (h : keysNodup p.table)
    (ops : List PoolOp) : keysNodup (applyOps p ops).table := by
  induction ops generalizing p with
  | nil => exact h
  | cons op rest ih => exact ih (applyOp p op) (keysNodup_applyOp p op h)

/-- Witness for C1 at a concrete pool and operation sequence. -/
theorem C1_allocation_addresses_unique_witness :
    keysNodup (⟨0, 2, 0, []⟩ : PoolManager).table ∧
    keysNodup (applyOps ⟨0, 2, 0, []⟩
      [.allocate 1 "a" 0, .allocate 1 "b" 1, .release 0 "a",
       .allocate 2 "c" 2, .allocate 2 "d" 3]).table :=
  ⟨by decide, C1_allocation_addresses_unique ⟨0, 2, 0, []⟩ (by decide) _⟩

/-- C4: every address returned by a successful `Allocate` lies inside the
configured closed interval `[start, end]`, for every table state, owner
and transaction argument, given a well-formed range `start ≤ end`. -/
theorem C4_allocate_within_range (p : PoolManager) (tid : Nat) (o : String)
    (now : Nat) (a : Nat) (p' : PoolManager)
    (hrange : p.rangeStart ≤ p.rangeEnd)
    (h : p.Allocate tid o now = .ok (a, p')) :
    p.rangeStart ≤ a ∧ a ≤ p.rangeEnd := by
  obtain ⟨hs, -, -, -⟩ := Allocate_ok_spec p tid o now a p' h
  have hsz : 0 < p.rangeSize := by unfold PoolManager.rangeSize; omega
  have hb := scanAux_some_bound p.table p.rangeStart p.rangeSize hsz
    p.rangeSize p.cursor a hs
  unfold PoolManager.rangeSize at hb
  omega

/-- Witness for C4 at a concrete allocation. -/
theorem C4_allocate_within_range_witness :
    scenarioPool.rangeStart ≤ scenarioPool.rangeEnd ∧
    scenarioPool.rangeStart ≤ 0x020000000000 ∧
    (0x020000000000 : Nat) ≤ scenarioPool.rangeEnd :=
  ⟨by decide,
   (C4_allocate_within_range scenarioPool 1 "a" 0 0x020000000000 scenarioPool1
      (by decide) rfl).1,
   (C4_allocate_within_range scenarioPool 1 "a" 0 0x020000000000 scenarioPool1
      (by decide) rfl).2⟩

/-- C3: if every address of the configured range already has an Allocation
Record, `Allocate` fails with `PoolExhausted` — the error path returns no
new state, so the Allocation Table is unchanged. -/
theorem C3_allocate_pool_exhausted (p : PoolManager) (tid : Nat) (o : String)
    (now : Nat) (hrange : p.rangeStart ≤ p.rangeEnd)
    (hfull : ∀ a, p.rangeStart ≤ a → a ≤ p.rangeEnd → lookupTable p.table a ≠ none) :
    p.Allocate tid o now = .error .poolExhausted := by
  have hnone : p.scanFree = none := by
    unfold PoolManager.scanFree
    apply scanAux_none_of_full
    · unfold PoolManager.rangeSize; omega
    · intro a h1 h2
      refine hfull a h1 ?_
      unfold PoolManager.rangeSize at h2
      omega
  unfold PoolManager.Allocate
  rw [hnone]

/-- Witness for C3: the spec §8 scenario — over the three-address range
`02:00:00:00:00:00`–`02:00:00:00:00:02`, three sequential single-interface
allocations succeed with the three distinct addresses of the range, and
the fourth fails with `PoolExhausted`. -/
theorem C3_allocate_pool_exhausted_witness :
    scenarioPool.Allocate 1 "a" 0 = .ok (0x020000000000, scenarioPool1) ∧
    scenarioPool1.Allocate 2 "b" 1 = .ok (0x020000000001, scenarioPool2) ∧
    scenarioPool2.Allocate 3 "c" 2 = .ok (0x020000000002, scenarioPool3) ∧
    (0x020000000000 : Nat) ≠ 0x020000000001 ∧
    (0x020000000000 : Nat) ≠ 0x020000000002 ∧
    (0x020000000001 : Nat) ≠ 0x020000000002 ∧
    scenarioPool3.Allocate 4 "d" 3 = .error .poolExhausted :=
  ⟨rfl, rfl, rfl, by decide, by decide, by decide,
   C3_allocate_pool_exhausted scenarioPool3 4 "d" 3 (by decide)
     (by
       intro a h1 h2
       have : a = 0x020000000000 ∨ a = 0x020000000001 ∨ a = 0x020000000002 := by
         simp only [scenarioPool3] at h1 h2
         omega
       rcases this with rfl | rfl | rfl <;> decide)⟩

theorem lookupTable_filter_self (t : AllocationTable) (a : Nat) :
    lookupTable (t.filter fun e => decide (e.1 ≠ a)) a = none := by
  rw [lookupTable_eq_none_iff]
  intro hmem
  simp only [List.mem_map] at hmem
  obtain ⟨e, he, hfst⟩ := hmem
  have hp := List.of_mem_filter he
  simp only [decide_eq_true_eq] at hp
  exact hp hfst

theorem Release_of_lookup_none (p : PoolManager) (a : Nat) (o : String)
    (hl : lookupTable p.table a = none) : p.Release a o = .ok p := by
  unfold PoolManager.Release
  rw [hl]

/-- C6: `Release` is idempotent — provided any record held at the address
belongs to the releasing owner, the first `Release` succeeds, leaves no
record for the address, and a second `Release` on the same address with
the same owner succeeds again without changing the state. -/
theorem C6_release_idempotent (p : PoolManager) (a : Nat) (o : String)
    (hown : ∀ r, lookupTable p.table a = some r → r.owner = o) :
    ∃ p', p.Release a o = .ok p' ∧ lookupTable p'.table a = none ∧
          p'.Release a o = .ok p' := by
  cases hl : lookupTable p.table a with
  | none =>
      exact ⟨p, Release_of_lookup_none p a o hl, hl,
             Release_of_lookup_none p a o hl⟩
  | some r =>
      have ho := hown r hl
      refine ⟨{ p with table := p.table.filter fun e => decide (e.1 ≠ a) },
              ?_, lookupTable_filter_self p.table a, ?_⟩
      · unfold PoolManager.Release
        rw [hl]
        dsimp only
        rw [if_pos ho]
      · exact Release_of_lookup_none _ a o (lookupTable_filter_self p.table a)

/-- Witness for C6: allocate then release the same address twice with the
same owner — both releases succeed and no record remains. -/
theorem C6_release_idempotent_witness :
    (∀ r, lookupTable scenarioPool1.table 0x020000000000 = some r →
      r.owner = "a") ∧
    ∃ p', scenarioPool1.Release 0x020000000000 "a" = .ok p' ∧
          lookupTable p'.table 0x020000000000 = none ∧
          p'.Release 0x020000000000 "a" = .ok p' :=
  ⟨by decide, C6_release_idempotent scenarioPool1 0x020000000000 "a" (by decide)⟩

theorem allocLoop_table (tid now : Nat) :
    ∀ (owners : List String) (p : PoolManager) (r : Except AllocError (List Nat))
      (p' : PoolManager), allocLoop tid now p owners = (r, p') →
      ∃ pre, p'.table = pre ++ p.table ∧
        ∀ e ∈ pre, e.2.transactionID = tid ∧ e.2.state = .provisional := by
  intro owners
  induction owners with
  | nil =>
      intro p r p' h
      simp only [allocLoop] at h
      injection h with h1 h2
      subst h2
      exact ⟨[], rfl, by simp⟩
  | cons o rest ih =>
      intro p r p' h
      simp only [allocLoop] at h
      cases ha : p.Allocate tid o now with
      | error e =>
          rw [ha] at h
          dsimp only at h
          injection h with h1 h2
          subst h2
          exact ⟨[], rfl, by simp⟩
      | ok v =>
          obtain ⟨a, q⟩ := v
          rw [ha] at h
          dsimp only at h
          obtain ⟨-, ht, -, -⟩ := Allocate_ok_spec p tid o now a q ha
          cases hrec : allocLoop tid now q rest with
          | mk r2 p2 =>
              rw [hrec] at h
              obtain ⟨pre2, hpre2, hall2⟩ := ih q r2 p2 hrec
              have hout : p' = p2 := by
                cases r2 with
                | ok as => dsimp only at h; injection h with h1 h2; exact h2.symm
                | error e2 => dsimp only at h; injection h with h1 h2; exact h2.symm
              subst hout
              refine ⟨pre2 ++ [(a, ⟨o, .provisional, now, tid⟩)], ?_, ?_⟩
              · rw [hpre2, ht, List.append_assoc, List.singleton_append]
              · intro e he
                rcases List.mem_append.mp he with h3 | h3
                · exact hall2 e h3
                · rw [List.mem_singleton] at h3
                  subst h3
                  exact ⟨rfl, rfl⟩

/-- C2: transactions are atomic — when a later interface of a request
cannot be allocated, the handler rolls the transaction back and rejects
the request, and the Allocation Table is exactly what it was before the
request: in particular it holds zero records for the transaction ID,
provided the ID was fresh for the request. -/
theorem C2_failed_request_rolls_back (p : PoolManager) (tid : Nat)
    (owners : List String) (now : Nat) (err : AllocError) (p' : PoolManager)
    (hfresh : ∀ e ∈ p.table, e.2.transactionID ≠ tid)
    (h : mutateRequest p tid owners now = (.error err, p')) :
    p'.table = p.table ∧ ∀ e ∈ p'.table, e.2.transactionID ≠ tid := by
  unfold mutateRequest at h
  cases hl : allocLoop tid now p owners with
  | mk r q =>
      rw [hl] at h
      cases r with
      | ok as => dsimp only at h; injection h with h1 h2; cases h1
      | error e =>
          dsimp only at h
          injection h with h1 h2
          subst h2
          obtain ⟨pre, hpre, hall⟩ := allocLoop_table tid now owners p (.error e) q hl
          have htab : (q.RollbackTransaction tid).table = p.table := by
            unfold PoolManager.RollbackTransaction
            dsimp only
            rw [hpre, List.filter_append]
            have hnil : pre.filter (fun e =>
                decide (¬(e.2.transactionID = tid ∧ e.2.state = .provisional))) = [] := by
              rw [List.filter_eq_nil_iff]
              intro e he
              obtain ⟨h3, h4⟩ := hall e he
              simp [h3, h4]
            have hself : p.table.filter (fun e =>
                decide (¬(e.2.transactionID = tid ∧ e.2.state = .provisional))) = p.table := by
              rw [List.filter_eq_self]
              intro e he
              simp [hfresh e he]
            rw [hnil, hself, List.nil_append]
          refine ⟨htab, ?_⟩
          intro e he
          rw [htab] at he
          exact hfresh e he

/-- Witness for C2: the spec §8 two-interface scenario over a one-address
range — the second allocation exhausts the pool, the first provisional
address is rolled back and the admission fails with no record retained. -/
theorem C2_failed_request_rolls_back_witness :
    mutateRequest ⟨0, 0, 0, []⟩ 7 ["i1", "i2"] 5 =
      (.error .poolExhausted, ⟨0, 0, 0, []⟩) ∧
    (⟨0, 0, 0, ([] : AllocationTable)⟩ : PoolManager).table =
      (⟨0, 0, 0, []⟩ : PoolManager).table ∧
    ∀ e ∈ (⟨0, 0, 0, ([] : AllocationTable)⟩ : PoolManager).table,
      e.2.transactionID ≠ 7 :=
  ⟨rfl,
   (C2_failed_request_rolls_back ⟨0, 0, 0, []⟩ 7 ["i1", "i2"] 5 .poolExhausted
      ⟨0, 0, 0, []⟩ (by simp) rfl).1,
   (C2_failed_request_rolls_back ⟨0, 0, 0, []⟩ 7 ["i1", "i2"] 5 .poolExhausted
      ⟨0, 0, 0, []⟩ (by simp) rfl).2⟩

theorem lookupTable_filter_none (a : Nat) (r : AllocationRecord)
    (pred : Nat × AllocationRecord → Bool) :
    ∀ t : AllocationTable, keysNodup t → lookupTable t a = some r →
      pred (a, r) = false → lookupTable (t.filter pred) a = none := by
  intro t
  induction t with
  | nil => intro _ hl; cases hl
  | cons e rest ih =>
      obtain ⟨b, s⟩ := e
      intro hnd hl hp
      obtain ⟨hb, hndr⟩ := List.nodup_cons.mp hnd
      rw [List.filter_cons]
      simp only [lookupTable] at hl
      by_cases hba : b = a
      · subst hba
        rw [if_pos rfl] at hl
        injection hl with hl
        subst hl
        rw [if_neg (by simp [hp])]
        rw [lookupTable_eq_none_iff]
        intro hmem
        exact hb (((List.filter_sublist rest).map Prod.fst).subset hmem)
      · rw [if_neg hba] at hl
        have hrec := ih hndr hl hp
        split
        · simp only [lookupTable]
          rw [if_neg hba]
          exact hrec
        · exact hrec

/-- C5: a record still Provisional when it is older than the wait time is
released by the next Reclamation Sweeper cycle — with sweeps firing every
`interval` from `t0` and `interval` shorter than the wait time, some sweep
cycle no later than `allocatedAt + waitTime + interval` finds the record
older than the wait time and removes it, so a Provisional record never
survives past that bound. -/
theorem C5_provisional_reclaimed_within_bound (p : PoolManager) (a : Nat)
    (r : AllocationRecord) (t0 interval waitTime : Nat)
    (hint : 0 < interval) (hiw : interval < waitTime)
    (hnd : keysNodup p.table)
    (hl : lookupTable p.table a = some r) (hprov : r.state = .provisional)
    (ht0 : t0 ≤ r.allocatedAt) :
    ∃ k, r.allocatedAt + waitTime < sweepTime t0 interval k ∧
         sweepTime t0 interval k ≤ r.allocatedAt + waitTime + interval ∧
         lookupTable ((p.sweep (sweepTime t0 interval k) waitTime).table) a = none := by
  set d := r.allocatedAt + waitTime - t0 with hd
  have hmod := Nat.div_add_mod d interval
  have hmlt : d % interval < interval := Nat.mod_lt d hint
  have hmul : (d / interval + 1) * interval = interval * (d / interval) + interval := by
    ring
  have hlow : r.allocatedAt + waitTime < sweepTime t0 interval (d / interval + 1) := by
    unfold sweepTime
    rw [hmul]
    generalize hM : interval * (d / interval) = M at hmod
    omega
  have hhigh : sweepTime t0 interval (d / interval + 1) ≤
      r.allocatedAt + waitTime + interval := by
    unfold sweepTime
    rw [hmul]
    generalize hM : interval * (d / interval) = M at hmod
    omega
  refine ⟨d / interval + 1, hlow, hhigh, ?_⟩
  apply lookupTable_filter_none a r _ p.table hnd hl
  simp only [hprov, true_and, decide_eq_false_iff_not, not_not]
  exact hlow

/-- Witness for C5 at a concrete pool holding one Provisional record. -/
theorem C5_provisional_reclaimed_within_bound_witness :
    (0 : Nat) < 1 ∧ (1 : Nat) < 2 ∧
    keysNodup (⟨0, 0, 0, [(0, ⟨"o", .provisional, 0, 1⟩)]⟩ : PoolManager).table ∧
    lookupTable (⟨0, 0, 0, [(0, ⟨"o", .provisional, 0, 1⟩)]⟩ : PoolManager).table 0 =
      some ⟨"o", .provisional, 0, 1⟩ ∧
    (∃ k, (⟨"o", AllocState.provisional, 0, 1⟩ : AllocationRecord).allocatedAt + 2 <
            sweepTime 0 1 k ∧
          sweepTime 0 1 k ≤
            (⟨"o", AllocState.provisional, 0, 1⟩ : AllocationRecord).allocatedAt + 2 + 1 ∧
          lookupTable (((⟨0, 0, 0, [(0, ⟨"o", .provisional, 0, 1⟩)]⟩ : PoolManager).sweep
            (sweepTime 0 1 k) 2).table) 0 = none) :=
  ⟨Nat.zero_lt_one, Nat.one_lt_two, by decide, rfl,
   C5_provisional_reclaimed_within_bound ⟨0, 0, 0, [(0, ⟨"o", .provisional, 0, 1⟩)]⟩
     0 ⟨"o", .provisional, 0, 1⟩ 0 1 2 Nat.zero_lt_one Nat.one_lt_two
     (by decide) rfl rfl (Nat.le_refl 0)⟩

theorem hexDigit_round : ∀ x < 16, hexDigitToNat (natToHexDigit x) = some x := by
  decide

theorem parseByte_renderByte (b : Nat) (h : b < 256) :
    parseByte (natToHexDigit (b / 16)) (natToHexDigit (b % 16)) = some b := by
  have h1 : b / 16 < 16 := by omega
  have h2 : b % 16 < 16 := by omega
  unfold parseByte
  rw [hexDigit_round _ h1, hexDigit_round _ h2]
  dsimp only
  rw [Nat.div_add_mod]

theorem macParse_pattern (a1 a2 b1 b2 c1 c2 d1 d2 e1 e2 f1 f2 : Char) :
    macParse [a1, a2, ':', b1, b2, ':', c1, c2, ':', d1, d2, ':', e1, e2, ':', f1, f2] =
      match parseByte a1 a2, parseByte b1 b2, parseByte c1 c2,
            parseByte d1 d2, parseByte e1 e2, parseByte f1 f2 with
      | some v5, some v4, some v3, some v2, some v1, some v0 =>
          some (v5 * 2 ^ 40 + v4 * 2 ^ 32 + v3 * 2 ^ 24 +
                v2 * 2 ^ 16 + v1 * 2 ^ 8 + v0)
      | _, _, _, _, _, _ => none := rfl

theorem macParse_macRender (n : Nat) (h : n < 2 ^ 48) :
    macParse (macRender n) = some n := by
  have hb : ∀ m : Nat, m % 256 < 256 := fun m => Nat.mod_lt _ (by norm_num)
  show macParse
      [natToHexDigit (n / 2 ^ 40 % 256 / 16), natToHexDigit (n / 2 ^ 40 % 256 % 16), ':',
       natToHexDigit (n / 2 ^ 32 % 256 / 16), natToHexDigit (n / 2 ^ 32 % 256 % 16), ':',
       natToHexDigit (n / 2 ^ 24 % 256 / 16), natToHexDigit (n / 2 ^ 24 % 256 % 16), ':',
       natToHexDigit (n / 2 ^ 16 % 256 / 16), natToHexDigit (n / 2 ^ 16 % 256 % 16), ':',
       natToHexDigit (n / 2 ^ 8 % 256 / 16), natToHexDigit (n / 2 ^ 8 % 256 % 16), ':',
       natToHexDigit (n % 256 / 16), natToHexDigit (n % 256 % 16)] = some n
  rw [macParse_pattern, parseByte_renderByte _ (hb _), parseByte_renderByte _ (hb _),
      parseByte_renderByte _ (hb _), parseByte_renderByte _ (hb _),
      parseByte_renderByte _ (hb _), parseByte_renderByte _ (hb _)]
  dsimp only
  congr 1
  omega

theorem hexDigitToNat_lt (c : Char) (x : Nat) (h : hexDigitToNat c = some x) :
    x < 16 := by
  unfold hexDigitToNat at h
  split_ifs at h with h1 h2 h3 <;>
    (try injection h with h) <;> omega

theorem natToHexDigit_of_hexDigit (c : Char) (x : Nat)
    (h : hexDigitToNat c = some x) (hu : c.toNat < 97) : natToHexDigit x = c := by
  unfold hexDigitToNat at h
  unfold natToHexDigit
  split_ifs at h with h1 h2 h3
  · injection h with h
    subst h
    rw [if_pos (by omega)]
    have he : c.toNat - 48 + 48 = c.toNat := by omega
    rw [he]
    exact Char.ofNat_toNat c
  · injection h with h
    subst h
    rw [if_neg (by omega)]
    have he : c.toNat - 55 + 55 = c.toNat := by omega
    rw [he]
    exact Char.ofNat_toNat c
  · exact absurd h3.1 (by omega)

theorem renderByte_of_parseByte (c1 c2 : Char) (b : Nat)
    (h : parseByte c1 c2 = some b) (hu1 : c1.toNat < 97) (hu2 : c2.toNat < 97) :
    renderByte b = [c1, c2] ∧ b < 256 := by
  unfold parseByte at h
  cases h1 : hexDigitToNat c1 with
  | none => rw [h1] at h; dsimp only at h; cases h
  | some x =>
      cases h2 : hexDigitToNat c2 with
      | none => rw [h1, h2] at h; dsimp only at h; cases h
      | some y =>
          rw [h1, h2] at h
          dsimp only at h
          injection h with h
          subst h
          have hx := hexDigitToNat_lt c1 x h1
          have hy := hexDigitToNat_lt c2 y h2
          have hdx : (16 * x + y) / 16 = x := by omega
          have hdy : (16 * x + y) % 16 = y := by omega
          unfold renderByte
          rw [hdx, hdy, natToHexDigit_of_hexDigit c1 x h1 hu1,
              natToHexDigit_of_hexDigit c2 y h2 hu2]
          exact ⟨rfl, by omega⟩

theorem macRender_macParse (s : List Char) (n : Nat)
    (hp : macParse s = some n) (hc : canonicalChars s) : macRender n = s := by
  unfold macParse at hp
  split at hp
  · rename_i p1 p2 q1 q2 u1 u2 w1 w2 x1 x2 y1 y2
    have m01 : p1.toNat < 97 := hc p1 (by simp)
    have m02 : p2.toNat < 97 := hc p2 (by simp)
    have m03 : q1.toNat < 97 := hc q1 (by simp)
    have m04 : q2.toNat < 97 := hc q2 (by simp)
    have m05 : u1.toNat < 97 := hc u1 (by simp)
    have m06 : u2.toNat < 97 := hc u2 (by simp)
    have m07 : w1.toNat < 97 := hc w1 (by simp)
    have m08 : w2.toNat < 97 := hc w2 (by simp)
    have m09 : x1.toNat < 97 := hc x1 (by simp)
    have m10 : x2.toNat < 97 := hc x2 (by simp)
    have m11 : y1.toNat < 97 := hc y1 (by simp)
    have m12 : y2.toNat < 97 := hc y2 (by simp)
    cases g5 : parseByte p1 p2 with
    | none => rw [g5] at hp; dsimp only at hp; cases hp
    | some v5 =>
    cases g4 : parseByte q1 q2 with
    | none => rw [g5, g4] at hp; dsimp only at hp; cases hp
    | some v4 =>
    cases g3 : parseByte u1 u2 with
    | none => rw [g5, g4, g3] at hp; dsimp only at hp; cases hp
    | some v3 =>
    cases g2 : parseByte w1 w2 with
    | none => rw [g5, g4, g3, g2] at hp; dsimp only at hp; cases hp
    | some v2 =>
    cases g1 : parseByte x1 x2 with
    | none => rw [g5, g4, g3, g2, g1] at hp; dsimp only at hp; cases hp
    | some v1 =>
    cases g0 : parseByte y1 y2 with
    | none => rw [g5, g4, g3, g2, g1, g0] at hp; dsimp only at hp; cases hp
    | some v0 =>
    rw [g5, g4, g3, g2, g1, g0] at hp
    dsimp only at hp
    injection hp with hp
    subst hp
    obtain ⟨hr5, hb5⟩ := renderByte_of_parseByte p1 p2 v5 g5 m01 m02
    obtain ⟨hr4, hb4⟩ := renderByte_of_parseByte q1 q2 v4 g4 m03 m04
    obtain ⟨hr3, hb3⟩ := renderByte_of_parseByte u1 u2 v3 g3 m05 m06
    obtain ⟨hr2, hb2⟩ := renderByte_of_parseByte w1 w2 v2 g2 m07 m08
    obtain ⟨hr1, hb1⟩ := renderByte_of_parseByte x1 x2 v1 g1 m09 m10
    obtain ⟨hr0, hb0⟩ := renderByte_of_parseByte y1 y2 v0 g0 m11 m12
    have e5 : (v5 * 2 ^ 40 + v4 * 2 ^ 32 + v3 * 2 ^ 24 + v2 * 2 ^ 16 +
               v1 * 2 ^ 8 + v0) / 2 ^ 40 % 256 = v5 := by omega
    have e4 : (v5 * 2 ^ 40 + v4 * 2 ^ 32 + v3 * 2 ^ 24 + v2 * 2 ^ 16 +
               v1 * 2 ^ 8 + v0) / 2 ^ 32 % 256 = v4 := by omega
    have e3 : (v5 * 2 ^ 40 + v4 * 2 ^ 32 + v3 * 2 ^ 24 + v2 * 2 ^ 16 +
               v1 * 2 ^ 8 + v0) / 2 ^ 24 % 256 = v3 := by omega
    have e2 : (v5 * 2 ^ 40 + v4 * 2 ^ 32 + v3 * 2 ^ 24 + v2 * 2 ^ 16 +
               v1 * 2 ^ 8 + v0) / 2 ^ 16 % 256 = v2 := by omega
    have e1 : (v5 * 2 ^ 40 + v4 * 2 ^ 32 + v3 * 2 ^ 24 + v2 * 2 ^ 16 +
               v1 * 2 ^ 8 + v0) / 2 ^ 8 % 256 = v1 := by omega
    have e0 : (v5 * 2 ^ 40 + v4 * 2 ^ 32 + v3 * 2 ^ 24 + v2 * 2 ^ 16 +
               v1 * 2 ^ 8 + v0) % 256 = v0 := by omega
    unfold macRender
    rw [e5, e4, e3, e2, e1, e0, hr5, hr4, hr3, hr2, hr1, hr0]
    rfl
  · cases hp

/-- C7: conversion between the colon-hex MAC string form and the internal
48-bit integer form is bit-exact and round-trips in both directions —
rendering any 48-bit integer and re-parsing recovers the integer, and
parsing a canonical (upper-case) colon-hex string and re-rendering
recovers the string. -/
theorem C7_colon_hex_round_trip :
    (∀ n, n < 2 ^ 48 → macParse (macRender n) = some n) ∧
    (∀ s n, macParse s = some n → canonicalChars s → macRender n = s) :=
  ⟨macParse_macRender, macRender_macParse⟩

/-- Witness for C7 at the configured range bounds `02:00:00:00:00:00` and
`02:FF:FF:FF:FF:FF`. -/
theorem C7_colon_hex_round_trip_witness :
    macParse (macRender 0x020000000000) = some 0x020000000000 ∧
    macRender 0x02FFFFFFFFFF = "02:FF:FF:FF:FF:FF".data :=
  ⟨C7_colon_hex_round_trip.1 0x020000000000 (by norm_num),
   C7_colon_hex_round_trip.2 "02:FF:FF:FF:FF:FF".data 0x02FFFFFFFFFF
     (by decide) (by decide)⟩

/-- C8: the Webhook Dispatcher routes every admission request by resource
kind to the matching Mutation Handler: Pod requests to the handler serving
`POST /mutate-pods`, VirtualMachine requests to the handler serving
`POST /mutate-virtualmachines`, and any unrecognized kind is rejected with
a structural error. -/
theorem C8_dispatcher_routes_by_kind :
    dispatch .pod = .ok .podMutator ∧
    webhookPath .podMutator = "/mutate-pods" ∧
    dispatch .virtualMachine = .ok .vmMutator ∧
    webhookPath .vmMutator = "/mutate-virtualmachines" ∧
    (∀ name, dispatch (.other name) = .error .unrecognizedKind) :=
  ⟨rfl, rfl, rfl, rfl, fun _ => rfl⟩

end KubeMacPool

namespace ManagerPkg

/-- C9: for every `Options` value, `New` with a nil `rest.Config` returns
a nil manager together with the error `must specify Config`, defaulting no
option and constructing no sub-component before returning: the build trace
is empty. -/
theorem C9_new_nil_config_rejected (options : Options) :
    New none options = (.error "must specify Config", []) := rfl

/-- Witness for C9 at a concrete zero-valued `Options`. -/
theorem C9_new_nil_config_rejected_witness :
    New none
      ⟨none, none, none, false, "", "", "", "", none, none, none, none, none, none⟩ =
      (.error "must specify Config", []) :=
  C9_new_nil_config_rejected
    ⟨none, none, none, false, "", "", "", "", none, none, none, none, none, none⟩

theorem defaultSchemeStep_eq (o : Options) :
    defaultSchemeStep o =
      { o with Scheme := if o.Scheme.isNone then some clientGoScheme else o.Scheme } := by
  unfold defaultSchemeStep
  split_ifs with h <;> rfl

theorem defaultMapperStep_eq (o : Options) :
    defaultMapperStep o =
      { o with MapperProvider :=
          if o.MapperProvider.isNone then some NewDiscoveryRESTMapper
          else o.MapperProvider } := by
  unfold defaultMapperStep
  split_ifs with h <;> rfl

theorem defaultClientStep_eq (o : Options) :
    defaultClientStep o =
      { o with NewClient :=
          if o.NewClient.isNone then some defaultNewClient else o.NewClient } := by
  unfold defaultClientStep
  split_ifs with h <;> rfl

theorem defaultCacheStep_eq (o : Options) :
    defaultCacheStep o =
      { o with NewCache :=
          if o.NewCache.isNone then some cacheNew else o.NewCache } := by
  unfold defaultCacheStep
  split_ifs with h <;> rfl

theorem defaultRecorderProviderStep_eq (o : Options) :
    defaultRecorderProviderStep o =
      { o with newRecorderProvider :=
          if o.newRecorderProvider.isNone then some internalRecorderNewProvider
          else o.newRecorderProvider } := by
  unfold defaultRecorderProviderStep
  split_ifs with h <;> rfl

theorem defaultResourceLockStep_eq (o : Options) :
    defaultResourceLockStep o =
      { o with newResourceLock :=
          if o.newResourceLock.isNone then some leaderElectionNewResourceLock
          else o.newResourceLock } := by
  unfold defaultResourceLockStep
  split_ifs with h <;> rfl

theorem defaultAdmissionDecoderStep_eq (o : Options) :
    defaultAdmissionDecoderStep o =
      { o with newAdmissionDecoder :=
          if o.newAdmissionDecoder.isNone then some admissionNewDecoder
          else o.newAdmissionDecoder } := by
  unfold defaultAdmissionDecoderStep
  split_ifs with h <;> rfl

theorem defaultMetricsListenerStep_eq (o : Options) :
    defaultMetricsListenerStep o =
      { o with newMetricsListener :=
          if o.newMetricsListener.isNone then some metricsNewListener
          else o.newMetricsListener } := by
  unfold defaultMetricsListenerStep
  split_ifs with h <;> rfl

theorem setOptionsDefaults_eq (o : Options) :
    setOptionsDefaults o =
      { o with
        Scheme := if o.Scheme.isNone then some clientGoScheme else o.Scheme,
        MapperProvider :=
          if o.MapperProvider.isNone then some NewDiscoveryRESTMapper
          else o.MapperProvider,
        NewClient := if o.NewClient.isNone then some defaultNewClient else o.NewClient,
        NewCache := if o.NewCache.isNone then some cacheNew else o.NewCache,
        newRecorderProvider :=
          if o.newRecorderProvider.isNone then some internalRecorderNewProvider
          else o.newRecorderProvider,
        newResourceLock :=
          if o.newResourceLock.isNone then some leaderElectionNewResourceLock
          else o.newResourceLock,
        newAdmissionDecoder :=
          if o.newAdmissionDecoder.isNone then some admissionNewDecoder
          else o.newAdmissionDecoder,
        newMetricsListener :=
          if o.newMetricsListener.isNone then some metricsNewListener
          else o.newMetricsListener } := by
  unfold setOptionsDefaults
  rw [defaultSchemeStep_eq, defaultMapperStep_eq, defaultClientStep_eq,
      defaultCacheStep_eq, defaultRecorderProviderStep_eq, defaultResourceLockStep_eq,
      defaultAdmissionDecoderStep_eq, defaultMetricsListenerStep_eq]

/-- C10: `setOptionsDefaults` replaces exactly the nil fields of `Options`
with their documented defaults and returns every already-set field
unchanged — caller-supplied `Scheme`, `MapperProvider`, `NewClient`,
`NewCache` and the injected constructor hooks are never overwritten, and
the non-defaultable fields pass through untouched. -/
theorem C10_setOptionsDefaults_only_nil_fields (o : Options) :
    ((o.Scheme ≠ none → (setOptionsDefaults o).Scheme = o.Scheme) ∧
     (o.Scheme = none → (setOptionsDefaults o).Scheme = some clientGoScheme)) ∧
    ((o.MapperProvider.isSome →
        (setOptionsDefaults o).MapperProvider = o.MapperProvider) ∧
     (o.MapperProvider.isNone →
        (setOptionsDefaults o).MapperProvider = some NewDiscoveryRESTMapper)) ∧
    ((o.NewClient.isSome → (setOptionsDefaults o).NewClient = o.NewClient) ∧
     (o.NewClient.isNone → (setOptionsDefaults o).NewClient = some defaultNewClient)) ∧
    ((o.NewCache.isSome → (setOptionsDefaults o).NewCache = o.NewCache) ∧
     (o.NewCache.isNone → (setOptionsDefaults o).NewCache = some cacheNew)) ∧
    ((o.newRecorderProvider.isSome →
        (setOptionsDefaults o).newRecorderProvider = o.newRecorderProvider) ∧
     (o.newRecorderProvider.isNone →
        (setOptionsDefaults o).newRecorderProvider = some internalRecorderNewProvider)) ∧
    ((o.newResourceLock.isSome →
        (setOptionsDefaults o).newResourceLock = o.newResourceLock) ∧
     (o.newResourceLock.isNone →
        (setOptionsDefaults o).newResourceLock = some leaderElectionNewResourceLock)) ∧
    ((o.newAdmissionDecoder.isSome →
        (setOptionsDefaults o).newAdmissionDecoder = o.newAdmissionDecoder) ∧
     (o.newAdmissionDecoder.isNone →
        (setOptionsDefaults o).newAdmissionDecoder = some admissionNewDecoder)) ∧
    ((o.newMetricsListener.isSome →
        (setOptionsDefaults o).newMetricsListener = o.newMetricsListener) ∧
     (o.newMetricsListener.isNone →
        (setOptionsDefaults o).newMetricsListener = some metricsNewListener)) ∧
    (setOptionsDefaults o).SyncPeriod = o.SyncPeriod ∧
    (setOptionsDefaults o).LeaderElection = o.LeaderElection ∧
    (setOptionsDefaults o).LeaderElectionNamespace = o.LeaderElectionNamespace ∧
    (setOptionsDefaults o).LeaderElectionID = o.LeaderElectionID ∧
    (setOptionsDefaults o).Namespace = o.Namespace ∧
    (setOptionsDefaults o).MetricsBindAddress = o.MetricsBindAddress := by
  rw [setOptionsDefaults_eq]
  dsimp only
  repeat' apply And.intro
  all_goals try rfl
  all_goals intro h
  all_goals simp_all [Option.isNone_iff_eq_none, Option.isSome_iff_ne_none]

/-- Witness for C10: a mixed `Options` value with some fields set and the
rest nil. -/
theorem C10_setOptionsDefaults_only_nil_fields_witness :
    (setOptionsDefaults
      ⟨some ⟨7⟩, none, some 3600, true, "ns", "lock", "watch", ":8080",
       none, some defaultNewClient, none, none, none, none⟩).Scheme = some ⟨7⟩ ∧
    (setOptionsDefaults
      ⟨some ⟨7⟩, none, some 3600, true, "ns", "lock", "watch", ":8080",
       none, some defaultNewClient, none, none, none, none⟩).MapperProvider =
        some NewDiscoveryRESTMapper ∧
    (setOptionsDefaults
      ⟨some ⟨7⟩, none, some 3600, true, "ns", "lock", "watch", ":8080",
       none, some defaultNewClient, none, none, none, none⟩).NewClient =
        some defaultNewClient ∧
    (setOptionsDefaults
      ⟨some ⟨7⟩, none, some 3600, true, "ns", "lock", "watch", ":8080",
       none, some defaultNewClient, none, none, none, none⟩).SyncPeriod = some 3600 :=
  ⟨(C10_setOptionsDefaults_only_nil_fields _).1.1 (by simp),
   (C10_setOptionsDefaults_only_nil_fields _).2.1.2 (by simp),
   (C10_setOptionsDefaults_only_nil_fields _).2.2.1.1 (by simp),
   (C10_setOptionsDefaults_only_nil_fields _).2.2.2.2.2.2.2.2.1⟩

end ManagerPkg
